import Mathlib

/-!
Verification development for the invoice assembly / ledger matching scripts of
this repository (`apply-data-corrections.js` third section, and the unnamed
ledger+OCR merge script).

Embedding conventions:
* JavaScript primitive values are modelled by `JSVal` (undefined, null,
  booleans, numbers, strings).  Machine floats are modelled by `ℚ`; `NaN`,
  `-0` and float rounding are outside the model (the scripts only compare
  amounts after `Math.round(x*100)`, modelled exactly on `ℚ`).
* JS records parsed from JSON are modelled by structures whose fields are the
  keys the scripts read or write; an absent key is the value `JSVal.undef`.
* `Array.prototype.sort` with a consistent comparator is stable since
  ES2019; it is modelled by a stable insertion sort on the same key.
* String methods (`toUpperCase`, `toLowerCase`, `trim`) are modelled by the
  corresponding Lean functions; the data involved is ASCII, where they agree.
* JS number-to-string conversion (inside rationale strings only) is modelled
  by decimal printing of the rational, exact on the integers that occur.
-/

inductive JSVal where
  | undef : JSVal
  | null : JSVal
  | bool : Bool → JSVal
  | num : ℚ → JSVal
  | str : String → JSVal
deriving DecidableEq, Repr

/-- JS truthiness of a primitive value. -/
def JSVal.truthy : JSVal → Bool
  | .undef => false
  | .null => false
  | .bool b => b
  | .num q => q != 0
  | .str s => s != ""

/-- JS `x && y` on primitive values: returns `x` if falsy, else `y`. -/
def jsAnd (x y : JSVal) : JSVal := if x.truthy then y else x

/-- JS `x || y` on primitive values: returns `x` if truthy, else `y`. -/
def jsOr (x y : JSVal) : JSVal := if x.truthy then x else y

/-- JS `!x` on a primitive value. -/
def jsNot (x : JSVal) : JSVal := .bool (!x.truthy)

/-- The string content of a value in positions where the scripts only ever
see a string (or a falsy value guarded before the string method call). -/
def jsString : JSVal → String
  | .str s => s
  | _ => ""

/-- Decimal printing of a rational; exact JS printing on integers, which is
the only case the data exercises (used inside rationale strings only). -/
def ratDisplay (q : ℚ) : String :=
  if q.den = 1 then toString q.num else toString q.num ++ "/" ++ toString q.den

/-- JS `String(x)` / template-literal coercion of a primitive value. -/
def JSVal.display : JSVal → String
  | .undef => "undefined"
  | .null => "null"
  | .bool b => if b then "true" else "false"
  | .num q => ratDisplay q
  | .str s => s

/-- The numeric reading of `x || 0`: the number if the field holds a truthy
number, `0` otherwise (the schema holds only numbers in amount fields). -/
def numOr0 : JSVal → ℚ
  | .num q => q
  | _ => 0

/-- JS `Math.round`: round half toward positive infinity. -/
def jsRound (q : ℚ) : ℤ := ⌊q + 1/2⌋

/-- Drop leading and trailing whitespace from a character list. -/
def trimChars (l : List Char) : List Char :=
  ((l.dropWhile Char.isWhitespace).reverse.dropWhile Char.isWhitespace).reverse

/-- JS `String.prototype.trim` (the data is ASCII). -/
def strTrim (s : String) : String := .mk (trimChars s.toList)

/-- JS `String.prototype.toLowerCase` (the data is ASCII). -/
def strLower (s : String) : String := .mk (s.toList.map Char.toLower)

/-- JS `String.prototype.toUpperCase` (the data is ASCII). -/
def strUpper (s : String) : String := .mk (s.toList.map Char.toUpper)

/-- Substring test, JS `String.prototype.includes`. -/
def strContains (s pat : String) : Bool := decide (pat.toList <:+: s.toList)

/-- `(cents / 100).toFixed(2)` for an integer number of cents. -/
def toFixed2 (cents : ℤ) : String :=
  let a := cents.natAbs
  let r := a % 100
  (if cents < 0 then "-" else "") ++ toString (a / 100) ++ "." ++
    (if r < 10 then "0" ++ toString r else toString r)

/-- `String.prototype.padStart(2, "0")` for the 1–2 digit strings it is
applied to. -/
def padStart2 (s : String) : String := if s.length = 1 then "0" ++ s else s

/-- The `VENDOR_MAPPINGS` table of the merge script: OCR vendor names to
ledger vendor names. -/
def VENDOR_MAPPINGS : List (String × String) :=
  [ ("extended stay america", "ESA MANAGEMENT LLC"),
    ("esa management l.l.c.", "ESA MANAGEMENT LLC"),
    ("esa management llc", "ESA MANAGEMENT LLC"),
    ("esa management", "ESA MANAGEMENT LLC"),
    ("esa suites", "ESA MANAGEMENT LLC"),
    ("esa", "ESA MANAGEMENT LLC"),
    ("the ave", "THE AVE NASHVILLE LLC"),
    ("the ave nashville", "THE AVE NASHVILLE LLC"),
    ("the ave nashville llc", "THE AVE NASHVILLE LLC"),
    ("hillside crossing hotel", "HILLSIDE CROSSING LLC"),
    ("hillside crossing llc", "HILLSIDE CROSSING LLC"),
    ("hillside crossing", "HILLSIDE CROSSING LLC"),
    ("randstad", "Randstad North America Inc dba Randstad USA LLC"),
    ("randstad usa", "Randstad North America Inc dba Randstad USA LLC"),
    ("randstad north america", "Randstad North America Inc dba Randstad USA LLC"),
    ("depaul usa", "Depaul USA"),
    ("depaul", "Depaul USA"),
    ("community care fellowship, inc.", "COMMUNITY CARE FELLOWSHIP"),
    ("community care fellowship", "COMMUNITY CARE FELLOWSHIP"),
    ("rj young", "RJ Young Company LLC"),
    ("r.j. young", "RJ Young Company LLC"),
    ("robert j young company", "RJ Young Company LLC"),
    ("rj young company llc", "RJ Young Company LLC"),
    ("grainger", "\"W.W. Grainger, Inc. dba Grainger\""),
    ("w.w. grainger", "\"W.W. Grainger, Inc. dba Grainger\""),
    ("w.w. grainger, inc.", "\"W.W. Grainger, Inc. dba Grainger\""),
    ("w.w. grainger, inc. dba grainger", "\"W.W. Grainger, Inc. dba Grainger\""),
    ("97 wallace studios, llc", "97 WALLACE STUDIOS"),
    ("97 wallace studios", "97 WALLACE STUDIOS"),
    ("thompson machinery", "Thompson Machinery Commerce Corp."),
    ("thompson machinery commerce corp.", "Thompson Machinery Commerce Corp."),
    ("gordon food service inc.", "\"Gordon Food Service, Inc.\""),
    ("gordon food service", "\"Gordon Food Service, Inc.\""),
    ("gordon food service store", "\"Gordon Food Service, Inc.\""),
    ("gordon food service, inc.", "\"Gordon Food Service, Inc.\""),
    ("j hamilton", "\"Hamilton, Justen T\""),
    ("hamilton, justen t", "\"Hamilton, Justen T\""),
    ("justen hamilton", "\"Hamilton, Justen T\""),
    ("the hospitality hub of memphis", "The Hospitality Hub of Memphis"),
    ("hospitality hub", "The Hospitality Hub of Memphis") ]

/-- `normalizeVendorForLedgerMatch`: map an OCR vendor name onto the ledger
vendor name via `VENDOR_MAPPINGS`, returning the original name when unmapped
and the empty string on a falsy input. -/
def normalizeVendorForLedgerMatch (vendorName : JSVal) : String :=
  if !vendorName.truthy then ""
  else
    let lower := strTrim (strLower (jsString vendorName))
    match VENDOR_MAPPINGS.lookup lower with
    | some v => v
    | none => jsString vendorName

/-- `normalizeInvoiceNumber`: trim, strip leading zeros, uppercase; empty
string for a falsy input. -/
def normalizeInvoiceNumber (invoiceNum : JSVal) : String :=
  if !invoiceNum.truthy then ""
  else
    strUpper (String.mk (((strTrim invoiceNum.display).toList).dropWhile (· = '0')))

/-- Test for the anchored pattern of eight digits split 4-2-2 by dashes
(ISO date `YYYY-MM-DD`). -/
def isoDateShape (s : String) : Bool :=
  match s.toList with
  | [a, b, c, d, '-', e, f, '-', g, h] =>
    a.isDigit && b.isDigit && c.isDigit && d.isDigit &&
    e.isDigit && f.isDigit && g.isDigit && h.isDigit
  | _ => false

/-- One or two digit component of a US-style date. -/
def usComponent (s : String) : Bool :=
  (s.length = 1 || s.length = 2) && s.toList.all Char.isDigit

/-- Four digit year component. -/
def usYear (s : String) : Bool :=
  s.length = 4 && s.toList.all Char.isDigit

/-- Split a character list on the `/` character (anchored regex capture of
the `M/D/YYYY` form is a three-way split with shape checks). -/
def splitSlash : List Char → List (List Char)
  | [] => [[]]
  | c :: rest =>
    let r := splitSlash rest
    if c = '/' then [] :: r
    else
      match r with
      | [] => [[c]]
      | h :: t => (c :: h) :: t

/-- `normalizeDate`: accept ISO dates as-is, convert `M/D/YYYY` forms to
`YYYY-MM-DD`, return the trimmed original string otherwise, and the empty
string for a falsy input. -/
def normalizeDate (dateStr : JSVal) : String :=
  if !dateStr.truthy then ""
  else
    let str := strTrim dateStr.display
    if isoDateShape str then str
    else
      match (splitSlash str.toList).map String.mk with
      | [m, d, y] =>
        if usComponent m && usComponent d && usYear y then
          y ++ "-" ++ padStart2 m ++ "-" ++ padStart2 d
        else str
      | _ => str

example : normalizeDate (.str "9/1/2024") = "2024-09-01" := by decide
example : normalizeDate (.str "2024-09-01") = "2024-09-01" := by decide
example : normalizeDate (.str "hello") = "hello" := by decide
example : normalizeInvoiceNumber (.str " 00r35  ") = "R35" := by decide
example : normalizeVendorForLedgerMatch (.str " ESA Suites ") = "ESA MANAGEMENT LLC" := by decide

/-- One entry of an OCR `line_items` array (keys the scripts read). -/
structure LineItem where
  date : JSVal
  descr : JSVal
  quantity : JSVal
  unit_price : JSVal
  amount : JSVal
  category : JSVal
deriving DecidableEq, Repr

/-- The `merge_info` object written by `createMergedInvoice`. -/
structure MergeInfo where
  page_count : Nat
  source_pages : List JSVal
  was_merged : Bool
  merge_reasoning : String
deriving DecidableEq, Repr

/-- One parsed OCR page record: the keys of the JSON blobs that the
classifier, assembler, reconciler and matcher read or write.  An absent key
is `JSVal.undef`. -/
structure OCR where
  meta_confidence : JSVal
  meta_invoice_type : JSVal
  meta_is_full_invoice : JSVal
  meta_is_continuation_page : JSVal
  meta_has_grand_total : JSVal
  meta_source_page : JSVal
  meta_source_file : JSVal
  meta_notes : List JSVal
  invoice_number : JSVal
  invoice_date : JSVal
  due_date : JSVal
  vendor_name : JSVal
  vendor_id : JSVal
  vendor_address : JSVal
  vendor_phone : JSVal
  vendor_email : JSVal
  payer_name : JSVal
  payer_address : JSVal
  bu_code : JSVal
  processor_name : JSVal
  processor_date : JSVal
  invoice_total : JSVal
  amount_paid : JSVal
  amount_due : JSVal
  taxes : JSVal
  service_start : JSVal
  service_end : JSVal
  service_description : JSVal
  property_name : JSVal
  property_address : JSVal
  unit_count : JSVal
  line_items : List LineItem
  cost_allocations : List String
  confirmation_numbers : List JSVal
  employee_names : List JSVal
  reference_numbers : List JSVal
  merge_info : Option MergeInfo
  all_source_file_ids : Option (List JSVal)
  all_source_rows : Option (List JSVal)
deriving DecidableEq, Repr

/-- A blank record: every key absent. -/
def defOCR : OCR :=
  ⟨.undef, .undef, .undef, .undef, .undef, .undef, .undef, [],
   .undef, .undef, .undef, .undef, .undef, .undef, .undef, .undef,
   .undef, .undef, .undef, .undef, .undef, .undef, .undef, .undef, .undef,
   .undef, .undef, .undef, .undef, .undef, .undef, [], [], [], [], [],
   none, none, none⟩

/-- One row of the scanned-data CSV as the assembler reads it: the
`File ID` and `Number` columns, and the parse result of the `OCR` column
(`parseOCR` returns `null` exactly when the embedded JSON is unrepairable;
the textual repair-and-parse itself is external decoding, modelled by its
result). -/
structure SrcRow where
  fileId : JSVal
  number : JSVal
  ocr_payload : Option OCR
deriving DecidableEq, Repr

/-- A page that survived the OCR-parse filter. -/
structure Page where
  row : SrcRow
  ocr : OCR
deriving DecidableEq, Repr

def defPage : Page := ⟨⟨.undef, .undef, none⟩, defOCR⟩

/-- One parsed ledger row (`parseLedgerEntry` output): the keys the matcher
and the merged-record builder read.  `parseLedgerEntry` fills every one of
these from CSV text, so in runs of the script they are strings or numbers;
the model allows any primitive. -/
structure LedgerRec where
  document_type : JSVal
  document_number : JSVal
  batch_type : JSVal
  batch_number : JSVal
  batch_date : JSVal
  vendor_name : JSVal
  vendor_id : JSVal
  invoice_number : JSVal
  invoice_date : JSVal
  payment_date : JSVal
  gl_date : JSVal
  amount : JSVal
  debit : JSVal
  credit : JSVal
  business_unit : JSVal
  fund : JSVal
  object_account : JSVal
  object_account_descr : JSVal
  je_category : JSVal
  explanation : JSVal
  created : JSVal
  last_updated_by : JSVal
deriving DecidableEq, Repr

def defLedger : LedgerRec :=
  ⟨.undef, .undef, .undef, .undef, .undef, .undef, .undef, .undef, .undef,
   .undef, .undef, .undef, .undef, .undef, .undef, .undef, .undef, .undef,
   .undef, .undef, .undef, .undef⟩

/-- `normalizeVendorName` of the corrections script: lowercase, trim, and
collapse the ESA brand variations onto one key. -/
def normalizeVendorName (name : JSVal) : String :=
  if !name.truthy then ""
  else
    let normalized := strTrim (strLower (jsString name))
    if strContains normalized "extended stay" || strContains normalized "esa management" ||
       strContains normalized "esa suites" then "esa"
    else normalized

/-- `isSameVendor`. -/
def isSameVendor (vendor1 vendor2 : JSVal) : Bool :=
  normalizeVendorName vendor1 == normalizeVendorName vendor2

/-- `isUnknownVendor`: the OCR could not extract a vendor name. -/
def isUnknownVendor (vendorName : JSVal) : Bool :=
  if !vendorName.truthy then true
  else
    let normalized := strTrim (strLower (jsString vendorName))
    normalized == "unknown" || normalized == ""

/-- `isEffectiveContinuationPage`: a page that should be treated as a
continuation page even when the OCR did not mark it as one. -/
def isEffectiveContinuationPage : Option OCR → Bool
  | none => false
  | some ocr =>
    if ocr.meta_is_continuation_page == JSVal.bool true then true
    else
      let hasNoDate := !ocr.invoice_date.truthy ||
        ocr.invoice_date == JSVal.str "null" || ocr.invoice_date == JSVal.str "YYYY-MM-DD"
      let hasNoInvoiceNum := !ocr.invoice_number.truthy ||
        ocr.invoice_number == JSVal.str "N/A" || ocr.invoice_number == JSVal.str "null" ||
        ocr.invoice_number == JSVal.str "string" || ocr.invoice_number == JSVal.str "unknown"
      let hasNoVendorId := !ocr.vendor_id.truthy
      let hasNoBuCode := !ocr.bu_code.truthy
      let hasUnknownVendor := !ocr.vendor_name.truthy ||
        ocr.vendor_name == JSVal.str "unknown" || ocr.vendor_name == JSVal.str "Unknown"
      if hasNoDate && (hasNoInvoiceNum || hasNoVendorId) then true
      else if hasUnknownVendor && hasNoDate && hasNoVendorId && hasNoBuCode then true
      else false

/-- `isHeaderPage`, returning the value of the JS `&&`-chain
`ocr.vendor_id && ocr.bu_code && ocr.invoice_date && !ocr.meta_is_continuation_page`
(a falsy operand is returned as-is, not coerced to `false`). -/
def isHeaderPage : Option OCR → JSVal
  | none => .bool false
  | some ocr =>
    jsAnd ocr.vendor_id (jsAnd ocr.bu_code (jsAnd ocr.invoice_date
      (jsNot ocr.meta_is_continuation_page)))

/-- The anchored pattern of `isFolioPage`: `97` followed by at least one
digit, over the whole string. -/
def folioShape (s : String) : Bool :=
  match s.toList with
  | '9' :: '7' :: rest => !rest.isEmpty && rest.all Char.isDigit
  | _ => false

/-- `isFolioPage`, returning the value of the JS `&&`-chain
`invoiceNum && pattern.test(String(invoiceNum))`. -/
def isFolioPage : Option OCR → JSVal
  | none => .bool false
  | some ocr =>
    jsAnd ocr.invoice_number (.bool (folioShape ocr.invoice_number.display))

/-- The truthiness of `isHeaderPage`, as the assembler's conditions use it. -/
def isHeaderPageB (o : Option OCR) : Bool := (isHeaderPage o).truthy

/-- The truthiness of `isFolioPage`, as the assembler's conditions use it. -/
def isFolioPageB (o : Option OCR) : Bool := (isFolioPage o).truthy

example : isEffectiveContinuationPage (some defOCR) = true := by decide
example : isEffectiveContinuationPage none = false := by decide
example : isHeaderPage (some defOCR) = JSVal.undef := by decide
example : isFolioPageB (some { defOCR with invoice_number := .str "9700274547" }) = true := by decide
example : isFolioPageB (some { defOCR with invoice_number := .num 9712 }) = true := by decide

/-- Stable insertion step: place `x` after every earlier element `y` with
`before y x` and before the rest. -/
def insertKeyed (before : α → α → Bool) (x : α) : List α → List α
  | [] => [x]
  | y :: ys => if before y x then y :: insertKeyed before x ys else x :: y :: ys

/-- Stable sort by a strict precedence test; models
`Array.prototype.sort` (stable since ES2019) with a consistent comparator:
`before y x` holds when the comparator strictly orders `y` before `x`. -/
def sortKeyed (before : α → α → Bool) (l : List α) : List α :=
  l.foldr (insertKeyed before) []

/-- The numeric source page of a record, `ocr?.meta_source_page || 0`. -/
def pageNum (o : OCR) : ℚ := numOr0 o.meta_source_page

/-- Sort pages ascending by source page number (comparator `pageA - pageB`). -/
def sortPages (l : List Page) : List Page :=
  sortKeyed (fun a b => decide (pageNum a.ocr < pageNum b.ocr)) l

/-- First-occurrence deduplication keyed by `key`; models collecting into a
JS `Set` (insertion order preserved). -/
def dedupByKey [DecidableEq β] (key : α → β) (seen : List β) : List α → List α
  | [] => []
  | x :: xs =>
    if seen.contains (key x) then dedupByKey key seen xs
    else x :: dedupByKey key (key x :: seen) xs

/-- First-occurrence deduplication of the values themselves. -/
def dedupFirst [DecidableEq α] (l : List α) : List α := dedupByKey (fun x => x) [] l

/-- The composite deduplication key of `deduplicateLineItems`. -/
def lineItemKey (item : LineItem) : String :=
  (jsOr item.date (.str "")).display ++ "|" ++ (jsOr item.descr (.str "")).display ++
    "|" ++ (jsOr item.amount (.num 0)).display

/-- `deduplicateLineItems`: drop exact (date, description, amount) repeats,
keeping first occurrences. -/
def deduplicateLineItems (items : List LineItem) : List LineItem :=
  dedupByKey lineItemKey [] items

/-- `Math.max(...)` over a non-empty list of already-coerced numbers. -/
def maxListQ (l : List ℚ) : ℚ := l.foldl max (l.headD 0)

/-- Does a page qualify as a grand-total carrier for the reconciler:
`p.ocr?.meta_has_grand_total && (p.ocr?.invoice_total || 0) > 0`. -/
def qualifiesTotal (p : Page) : Bool :=
  p.ocr.meta_has_grand_total.truthy && decide (numOr0 p.ocr.invoice_total > 0)

/-- Descending stable sort of total-carrying pages by `invoice_total || 0`
(comparator `(b.ocr?.invoice_total || 0) - (a.ocr?.invoice_total || 0)`). -/
def sortByTotalDesc (l : List Page) : List Page :=
  sortKeyed (fun a b => decide (numOr0 a.ocr.invoice_total > numOr0 b.ocr.invoice_total)) l

/-- The multi-page branch of `createMergedInvoice`, applied to the sorted
member pages of a group. -/
def mergeMultiPages (pages : List Page) : OCR :=
  let pageOcrs := pages.map (·.ocr)
  let pageRows := pages.map (·.row)
  let firstOcr0 := pageOcrs.headD defOCR
  let pagesWithTotal := sortByTotalDesc (pages.filter qualifiesTotal)
  let totalOcr := ((pagesWithTotal.head?).map (·.ocr)).getD firstOcr0
  let headerOcr := ((pages.find? (fun p =>
    p.ocr.vendor_id.truthy || p.ocr.bu_code.truthy || p.ocr.processor_name.truthy)).map
      (·.ocr)).getD firstOcr0
  let mergedLineItems := deduplicateLineItems ((pageOcrs.map (·.line_items)).flatten)
  let sourcePages := sortKeyed (fun a b => decide (numOr0 a < numOr0 b))
    (pageOcrs.map (fun o => jsOr o.meta_source_page (.num 0)))
  let reasonParts :=
    (if pageOcrs.any (fun o => o.meta_is_continuation_page.truthy)
     then ["Contains continuation pages"] else []) ++
    (if pageOcrs.any (fun o => o.meta_has_grand_total.truthy)
     then ["Grand total on page " ++
        (match pageOcrs.find? (fun o => o.meta_has_grand_total.truthy) with
         | some o => o.meta_source_page.display
         | none => "undefined")]
     else []) ++
    ["Pages " ++ String.intercalate ", " (sourcePages.map (·.display))]
  let serviceDates := sortKeyed (fun a b => decide (JSVal.display a < JSVal.display b))
    (((pageOcrs.map (fun o => [o.service_start, o.service_end])).flatten).filter (·.truthy))
  {
    meta_confidence := .num (maxListQ (pageOcrs.map (fun o => numOr0 o.meta_confidence))),
    meta_invoice_type := jsOr headerOcr.meta_invoice_type (.str "UNKNOWN"),
    meta_is_full_invoice := .bool true,
    meta_is_continuation_page := .bool false,
    meta_has_grand_total := .bool true,
    meta_source_page := sourcePages.headD .undef,
    meta_source_file := headerOcr.meta_source_file,
    meta_notes := (pageOcrs.map (·.meta_notes)).flatten,
    invoice_number :=
      if headerOcr.invoice_number.truthy && headerOcr.invoice_number != JSVal.str "N/A"
      then headerOcr.invoice_number
      else jsOr totalOcr.invoice_number (.str "N/A"),
    invoice_date := jsOr headerOcr.invoice_date totalOcr.invoice_date,
    due_date := jsOr headerOcr.due_date totalOcr.due_date,
    vendor_name := jsOr headerOcr.vendor_name totalOcr.vendor_name,
    vendor_id := jsOr headerOcr.vendor_id totalOcr.vendor_id,
    vendor_address := jsOr headerOcr.vendor_address totalOcr.vendor_address,
    vendor_phone := jsOr headerOcr.vendor_phone totalOcr.vendor_phone,
    vendor_email := jsOr headerOcr.vendor_email totalOcr.vendor_email,
    payer_name := jsOr headerOcr.payer_name totalOcr.payer_name,
    payer_address := jsOr headerOcr.payer_address totalOcr.payer_address,
    bu_code := jsOr headerOcr.bu_code totalOcr.bu_code,
    processor_name := jsOr headerOcr.processor_name totalOcr.processor_name,
    processor_date := jsOr headerOcr.processor_date totalOcr.processor_date,
    invoice_total := jsOr totalOcr.invoice_total (.num 0),
    amount_paid := jsOr totalOcr.amount_paid (.num 0),
    amount_due := jsOr totalOcr.amount_due (.num 0),
    taxes := jsOr totalOcr.taxes (.num 0),
    service_start := jsOr (serviceDates.headD .undef) .null,
    service_end := jsOr (serviceDates.getLastD .undef) .null,
    service_description := jsOr headerOcr.service_description totalOcr.service_description,
    property_name := jsOr headerOcr.property_name totalOcr.property_name,
    property_address := jsOr headerOcr.property_address totalOcr.property_address,
    unit_count := .num (maxListQ (pageOcrs.map (fun o => numOr0 o.unit_count))),
    line_items := mergedLineItems,
    cost_allocations := dedupFirst ((pageOcrs.map (·.cost_allocations)).flatten),
    confirmation_numbers := dedupFirst ((pageOcrs.map (·.confirmation_numbers)).flatten),
    employee_names := dedupFirst ((pageOcrs.map (·.employee_names)).flatten),
    reference_numbers := dedupFirst ((pageOcrs.map (·.reference_numbers)).flatten),
    merge_info := some ⟨pages.length, sourcePages, true,
      String.intercalate ", " reasonParts⟩,
    all_source_file_ids := some (pageRows.map (·.fileId)),
    all_source_rows := some (pageRows.map (·.number)) }

/-- `createMergedInvoice`: reconcile the pages of one group into a single
record.  Empty groups yield `none` (the JS returns `null`).  The
`cost_allocations` entries are modelled by their serialized form, which is
exactly the key the source deduplicates on; its final re-parse is the
inverse of that serialization. -/
def createMergedInvoice (pages0 : List Page) : Option OCR :=
  if pages0.isEmpty then none
  else
    let pages := sortPages pages0
    let pageOcrs := pages.map (·.ocr)
    let pageRows := pages.map (·.row)
    let firstOcr0 := pageOcrs.headD defOCR
    if pages.length = 1 then
      some { firstOcr0 with
        merge_info := some ⟨1, [jsOr firstOcr0.meta_source_page (.num 0)], false,
          "Single-page invoice"⟩,
        all_source_file_ids := some [(pageRows.headD ⟨.undef, .undef, none⟩).fileId],
        all_source_rows := some [(pageRows.headD ⟨.undef, .undef, none⟩).number] }
    else some (mergeMultiPages pages)

/-- The merge-candidate signals of the assembler (`shouldMerge` before the
overrides).  The source is an `else if` chain in which signals 4, 5 and 6
have a *nested* inner test: when their outer guard fires but the inner test
fails, no later signal is consulted — modelled by the same chain. -/
def mergeCandidate (firstOcr prevOcr currentOcr : OCR) : Bool :=
  let isContinuation := currentOcr.meta_is_continuation_page == JSVal.bool true
  let isEffectiveCont := isEffectiveContinuationPage (some currentOcr)
  let hasGrandTotal := currentOcr.meta_has_grand_total == JSVal.bool true
  let invoiceTotal := numOr0 currentOcr.invoice_total
  let isConsecutive := pageNum currentOcr == pageNum prevOcr + 1
  if isContinuation && isConsecutive &&
      isSameVendor currentOcr.vendor_name prevOcr.vendor_name then true
  else if isConsecutive && isSameVendor currentOcr.vendor_name prevOcr.vendor_name &&
      !hasGrandTotal && invoiceTotal == 0 then true
  else if currentOcr.invoice_number.truthy && currentOcr.invoice_number != JSVal.str "N/A" &&
      prevOcr.invoice_number == currentOcr.invoice_number &&
      isSameVendor currentOcr.vendor_name prevOcr.vendor_name then true
  else if (isContinuation || isEffectiveCont) && !currentOcr.vendor_id.truthy &&
      !currentOcr.bu_code.truthy && isConsecutive then
    isSameVendor currentOcr.vendor_name firstOcr.vendor_name ||
      isUnknownVendor currentOcr.vendor_name
  else if isEffectiveCont && isConsecutive &&
      isSameVendor currentOcr.vendor_name firstOcr.vendor_name then
    isHeaderPageB (some firstOcr)
  else if isFolioPageB (some currentOcr) && isConsecutive &&
      isSameVendor currentOcr.vendor_name firstOcr.vendor_name then
    isHeaderPageB (some firstOcr) && !currentOcr.vendor_id.truthy
  else if isFolioPageB (some currentOcr) && isConsecutive &&
      currentOcr.bu_code.truthy && firstOcr.bu_code.truthy &&
      currentOcr.bu_code == firstOcr.bu_code && !currentOcr.vendor_id.truthy &&
      isSameVendor currentOcr.vendor_name firstOcr.vendor_name then true
  else if isEffectiveCont && isConsecutive && isUnknownVendor currentOcr.vendor_name &&
      currentOcr.meta_invoice_type == firstOcr.meta_invoice_type &&
      !currentOcr.vendor_id.truthy && !currentOcr.bu_code.truthy then true
  else false

/-- The assembler's decision for one page: merge-candidate signals filtered
through the override rules (overrides 1–3 form an `else if` chain; overrides
4 and 5 are separate `if` statements applied afterwards). -/
def mergeDecision (firstOcr prevOcr currentOcr : OCR) : Bool :=
  let isContinuation := currentOcr.meta_is_continuation_page == JSVal.bool true
  let isEffectiveCont := isEffectiveContinuationPage (some currentOcr)
  let hasGrandTotal := currentOcr.meta_has_grand_total == JSVal.bool true
  let invoiceTotal := numOr0 currentOcr.invoice_total
  let isConsecutive := pageNum currentOcr == pageNum prevOcr + 1
  if !mergeCandidate firstOcr prevOcr currentOcr then false
  else
    let afterChain :=
      if isHeaderPageB (some currentOcr) && !isContinuation then false
      else if !isContinuation && !isEffectiveCont &&
          currentOcr.invoice_number.truthy && currentOcr.invoice_number != JSVal.str "N/A" &&
          firstOcr.invoice_number.truthy && firstOcr.invoice_number != JSVal.str "N/A" &&
          currentOcr.invoice_number != firstOcr.invoice_number &&
          !isFolioPageB (some currentOcr) then false
      else if !isContinuation && !isEffectiveCont && hasGrandTotal &&
          prevOcr.meta_has_grand_total.truthy && decide (invoiceTotal > 0) &&
          decide (numOr0 prevOcr.invoice_total > 0) then
        isFolioPageB (some currentOcr) && currentOcr.bu_code.truthy &&
          firstOcr.bu_code.truthy && currentOcr.bu_code == firstOcr.bu_code
      else true
    let after4 :=
      if !isSameVendor currentOcr.vendor_name firstOcr.vendor_name &&
          !isUnknownVendor currentOcr.vendor_name then false
      else afterChain
    if !isConsecutive && decide (pageNum currentOcr > pageNum prevOcr + 1) then false
    else after4

/-- The group-completion test run after a page is appended: close now when
the appended page carries a positive grand total and is not an effective
continuation, unless the lookahead says the next page still belongs to this
invoice. -/
def closeAfterAppend (firstOcr currentOcr : OCR) (rest : List Page) : Bool :=
  let hasGrandTotal := currentOcr.meta_has_grand_total == JSVal.bool true
  let invoiceTotal := numOr0 currentOcr.invoice_total
  let isEffectiveCont := isEffectiveContinuationPage (some currentOcr)
  if hasGrandTotal && decide (invoiceTotal > 0) && !isEffectiveCont then
    let shouldContinue :=
      match rest.head? with
      | none => false
      | some nextPage =>
        let nextOcr := nextPage.ocr
        let nextIsConsecutive := nextOcr.meta_source_page == JSVal.num (pageNum currentOcr + 1)
        let nextIsEffectiveCont := isEffectiveContinuationPage (some nextOcr)
        let nextIsSameVendor := isSameVendor nextOcr.vendor_name firstOcr.vendor_name
        let nextIsFolio := isFolioPageB (some nextOcr)
        let nextHasSameBuCode := nextOcr.bu_code.truthy && firstOcr.bu_code.truthy &&
          nextOcr.bu_code == firstOcr.bu_code
        let nextIsNewHeader := isHeaderPageB (some nextOcr)
        nextIsConsecutive && nextIsSameVendor &&
          (nextIsEffectiveCont ||
            (nextIsFolio && nextHasSameBuCode && !nextIsNewHeader && !nextOcr.vendor_id.truthy))
    !shouldContinue
  else false

/-- The assembler's grouping loop over the sorted page sequence: `cur` is
the open group, `acc` the completed groups. -/
def assembleGo : List Page → List Page → List (List Page) → List (List Page)
  | [], cur, acc => if cur.isEmpty then acc else acc ++ [cur]
  | p :: rest, cur, acc =>
    if cur.isEmpty then assembleGo rest [p] acc
    else
      let firstOcr := (cur.headD defPage).ocr
      let prevOcr := (cur.getLastD defPage).ocr
      if mergeDecision firstOcr prevOcr p.ocr then
        if closeAfterAppend firstOcr p.ocr rest then assembleGo rest [] (acc ++ [cur ++ [p]])
        else assembleGo rest (cur ++ [p]) acc
      else assembleGo rest [p] (acc ++ [cur])

/-- The rows surviving the OCR-parse filter, paired with their records. -/
def pagesWithOcr (rows : List SrcRow) : List Page :=
  rows.filterMap (fun r => r.ocr_payload.map (fun o => ⟨r, o⟩))

/-- `processInvoices`: drop unparsable rows, sort by source page number, and
group pages into invoices. -/
def processInvoices (rows : List SrcRow) : List (List Page) :=
  assembleGo (sortPages (pagesWithOcr rows)) [] []

/-- One element of the matcher's `matches` array.  Entities are identified
by their position in the input lists (distinct JS objects), `mtype` is the
`matchInfo.type` string. -/
structure MatchRec where
  ledgerIdx : Nat
  ocrIdx : Nat
  mtype : String
  confidence : ℚ
  notes : String
deriving DecidableEq, Repr

/-- The matcher's mutable state: the accumulated match list (named
`matches` in the source, a Lean keyword) and the two unmatched pools
(positions into the input lists). -/
structure MState where
  matchList : List MatchRec
  unmatchedLedger : List Nat
  unmatchedOcr : List Nat
deriving DecidableEq, Repr

/-- The `ocrByInvoiceNum` index entry for a normalized invoice number: the
OCR positions whose normalized invoice number is non-empty, not `N/A`, and
equal to `ln`, in insertion order.  (`Map.get` on the index built by the
source returns exactly this list.) -/
def candidatesFor (ocrInvoices : List OCR) (ln : String) : List Nat :=
  (List.range ocrInvoices.length).filter (fun idx =>
    let n := normalizeInvoiceNumber (ocrInvoices.getD idx defOCR).invoice_number
    n != "" && n != "N/A" && n == ln)

/-- Pass 1 vendor verification between an OCR candidate and a ledger entry. -/
def pass1Vendor (ledger : LedgerRec) (ocr : OCR) : Bool :=
  let normalizedOcrVendor := normalizeVendorForLedgerMatch ocr.vendor_name
  strUpper normalizedOcrVendor == strUpper (jsString ledger.vendor_name) ||
    JSVal.str normalizedOcrVendor == ledger.vendor_name

/-- One iteration of Pass 1 (match by invoice number) for the ledger entry
at position `li`.  The candidate list comes from the prebuilt index, which
is *not* updated when an OCR record is matched. -/
def pass1Step (ledgerEntries : List LedgerRec) (ocrInvoices : List OCR)
    (s : MState) (li : Nat) : MState :=
  let ledger := ledgerEntries.getD li defLedger
  if ledger.document_type != JSVal.str "Invoice" then s
  else
    let ledgerInvoiceNum := normalizeInvoiceNumber ledger.invoice_number
    if ledgerInvoiceNum == "" then s
    else
      match (candidatesFor ocrInvoices ledgerInvoiceNum).find? (fun idx =>
          pass1Vendor ledger (ocrInvoices.getD idx defOCR)) with
      | none => s
      | some idx =>
        { matchList := s.matchList ++ [⟨li, idx, "invoice_number", (95 : ℚ)/100,
            "Matched by invoice number: " ++ ledgerInvoiceNum⟩],
          unmatchedLedger := s.unmatchedLedger.erase li,
          unmatchedOcr := s.unmatchedOcr.erase idx }

/-- The Pass 2 acceptance test: normalized vendor equality (case-folded),
normalized date equality, and amount equality at integer cent precision. -/
def pass2Cond (ledgerEntries : List LedgerRec) (ocrInvoices : List OCR)
    (li oi : Nat) : Bool :=
  let ledger := ledgerEntries.getD li defLedger
  let ocr := ocrInvoices.getD oi defOCR
  strUpper (normalizeVendorForLedgerMatch ocr.vendor_name) ==
      strUpper (jsString ledger.vendor_name) &&
    normalizeDate ledger.invoice_date == normalizeDate ocr.invoice_date &&
    jsRound (numOr0 ledger.debit * 100) == jsRound (numOr0 ocr.invoice_total * 100)

/-- The rationale string of a Pass 2 match. -/
def pass2Notes (ledger : LedgerRec) (ledgerDate : String) (cents : ℤ) : String :=
  "Matched by vendor (" ++ ledger.vendor_name.display ++ "), invoice date (" ++
    ledgerDate ++ "), and amount ($" ++ toFixed2 cents ++ ")"

/-- One iteration of Pass 2 (match by vendor + date + amount) for the ledger
entry at position `li`: scan the live unmatched-OCR pool in order, accept the
first hit, and remove both parties from their pools. -/
def pass2Step (ledgerEntries : List LedgerRec) (ocrInvoices : List OCR)
    (s : MState) (li : Nat) : MState :=
  let ledger := ledgerEntries.getD li defLedger
  let ledgerDate := normalizeDate ledger.invoice_date
  let ledgerAmount := jsRound (numOr0 ledger.debit * 100)
  if ledgerDate == "" then s
  else
    match s.unmatchedOcr.find? (fun oi => pass2Cond ledgerEntries ocrInvoices li oi) with
    | none => s
    | some oi =>
      { matchList := s.matchList ++ [⟨li, oi, "vendor_date_amount", (85 : ℚ)/100,
          pass2Notes ledger ledgerDate ledgerAmount⟩],
        unmatchedLedger := s.unmatchedLedger.erase li,
        unmatchedOcr := s.unmatchedOcr.erase oi }

/-- `matchInvoices`: Pass 1 over every ledger entry, then Pass 2 over a
snapshot of the still-unmatched invoice-kind ledger entries. -/
def matchInvoices (ledgerEntries : List LedgerRec) (ocrInvoices : List OCR) : MState :=
  let init : MState := ⟨[], List.range ledgerEntries.length, List.range ocrInvoices.length⟩
  let s1 := (List.range ledgerEntries.length).foldl (pass1Step ledgerEntries ocrInvoices) init
  let snapshot := s1.unmatchedLedger.filter (fun li =>
    (ledgerEntries.getD li defLedger).document_type == JSVal.str "Invoice")
  snapshot.foldl (pass2Step ledgerEntries ocrInvoices) s1

/-- Two ledger invoice entries sharing one invoice number and vendor, and a
single OCR document with that invoice number. -/
def exLedgerA : LedgerRec :=
  { defLedger with
    document_type := .str "Invoice",
    invoice_number := .str "123",
    vendor_name := .str "ACME",
    invoice_date := .str "2024-09-08",
    debit := .num 100 }

def exOcrA : OCR :=
  { defOCR with
    invoice_number := .str "123",
    vendor_name := .str "ACME",
    invoice_date := .str "2024-09-08",
    invoice_total := .num 100 }

/-- The `matchInfo` object attached to a match or bucket. -/
structure MatchInfoRec where
  mtype : String
  confidence : ℚ
  notes : String
deriving DecidableEq, Repr

/-- The `_data_sources` block of a merged record. -/
structure DataSources where
  ledger : Bool
  ocr : Bool
  match_type : String
  match_confidence : ℚ
  match_notes : String
deriving DecidableEq, Repr

/-- The `ledger` block of a merged record (the ledger fields
`createMergedRecord` copies). -/
structure LedgerView where
  document_type : JSVal
  document_number : JSVal
  vendor_name : JSVal
  vendor_id : JSVal
  invoice_number : JSVal
  invoice_date : JSVal
  payment_date : JSVal
  gl_date : JSVal
  amount : JSVal
  debit : JSVal
  credit : JSVal
  object_account : JSVal
  object_account_descr : JSVal
  business_unit : JSVal
  fund : JSVal
  je_category : JSVal
  explanation : JSVal
  batch_type : JSVal
  batch_number : JSVal
  batch_date : JSVal
  created : JSVal
  last_updated_by : JSVal
deriving DecidableEq, Repr

/-- The `ocr` block of a merged record (the OCR fields `createMergedRecord`
copies — the three `meta_is_*` flags are not among them). -/
structure OCRView where
  meta_confidence : JSVal
  meta_invoice_type : JSVal
  meta_source_page : JSVal
  meta_source_file : JSVal
  meta_notes : List JSVal
  invoice_number : JSVal
  invoice_date : JSVal
  due_date : JSVal
  vendor_name : JSVal
  vendor_id : JSVal
  vendor_address : JSVal
  vendor_phone : JSVal
  vendor_email : JSVal
  payer_name : JSVal
  payer_address : JSVal
  bu_code : JSVal
  processor_name : JSVal
  processor_date : JSVal
  invoice_total : JSVal
  amount_paid : JSVal
  amount_due : JSVal
  taxes : JSVal
  service_start : JSVal
  service_end : JSVal
  service_description : JSVal
  property_name : JSVal
  property_address : JSVal
  unit_count : JSVal
  line_items : List LineItem
  cost_allocations : List String
  confirmation_numbers : List JSVal
  employee_names : List JSVal
  reference_numbers : List JSVal
  merge_info : Option MergeInfo
  all_source_file_ids : Option (List JSVal)
  all_source_rows : Option (List JSVal)
deriving DecidableEq, Repr

/-- The `unified` block of a merged record. -/
structure UnifiedView where
  vendor_name : JSVal
  invoice_number : JSVal
  invoice_date : JSVal
  amount : JSVal
  payment_date : JSVal
  category : JSVal
  line_items : List LineItem
  confirmation_numbers : List JSVal
  employee_names : List JSVal
  service_period : String
deriving DecidableEq, Repr

/-- One record of the merged output. -/
structure MergedRecord where
  data_sources : DataSources
  ledger : Option LedgerView
  ocr : Option OCRView
  unified : UnifiedView
deriving DecidableEq, Repr

/-- JS optional chaining `x?.f` for a record field: `undefined` when the
record is `null`. -/
def optF (o : Option α) (f : α → JSVal) : JSVal :=
  match o with
  | some a => f a
  | none => JSVal.undef

/-- `createMergedRecord`: assemble the source-tracking, ledger, OCR and
unified blocks of one output record. -/
def createMergedRecord (ledgerEntry : Option LedgerRec) (ocrData : Option OCR)
    (matchInfo : Option MatchInfoRec) : MergedRecord :=
  { data_sources :=
      { ledger := ledgerEntry.isSome,
        ocr := ocrData.isSome,
        match_type := match matchInfo with
          | some mi => if mi.mtype = "" then "none" else mi.mtype
          | none => "none",
        match_confidence := match matchInfo with
          | some mi => mi.confidence
          | none => 0,
        match_notes := match matchInfo with
          | some mi => mi.notes
          | none => "" },
    ledger := ledgerEntry.map (fun l =>
      ⟨l.document_type, l.document_number, l.vendor_name, l.vendor_id,
       l.invoice_number, l.invoice_date, l.payment_date, l.gl_date, l.amount,
       l.debit, l.credit, l.object_account, l.object_account_descr,
       l.business_unit, l.fund, l.je_category, l.explanation, l.batch_type,
       l.batch_number, l.batch_date, l.created, l.last_updated_by⟩),
    ocr := ocrData.map (fun o =>
      ⟨o.meta_confidence, o.meta_invoice_type, o.meta_source_page,
       o.meta_source_file, o.meta_notes, o.invoice_number, o.invoice_date,
       o.due_date, o.vendor_name, o.vendor_id, o.vendor_address,
       o.vendor_phone, o.vendor_email, o.payer_name, o.payer_address,
       o.bu_code, o.processor_name, o.processor_date, o.invoice_total,
       o.amount_paid, o.amount_due, o.taxes, o.service_start, o.service_end,
       o.service_description, o.property_name, o.property_address,
       o.unit_count, o.line_items, o.cost_allocations,
       o.confirmation_numbers, o.employee_names, o.reference_numbers,
       o.merge_info, o.all_source_file_ids, o.all_source_rows⟩),
    unified :=
      { vendor_name := jsOr (optF ledgerEntry (·.vendor_name))
          (jsOr (optF ocrData (·.vendor_name)) (.str "")),
        invoice_number := jsOr (optF ledgerEntry (·.invoice_number))
          (jsOr (optF ocrData (·.invoice_number)) (.str "")),
        invoice_date := jsOr (optF ledgerEntry (·.invoice_date))
          (jsOr (optF ocrData (·.invoice_date)) (.str "")),
        amount := jsOr (optF ledgerEntry (·.amount))
          (jsOr (optF ocrData (·.invoice_total)) (.num 0)),
        payment_date := jsOr (optF ledgerEntry (·.payment_date)) (.str ""),
        category := jsOr (optF ledgerEntry (·.object_account_descr))
          (jsOr (optF ocrData (·.meta_invoice_type)) (.str "")),
        line_items := match ocrData with
          | some o => o.line_items
          | none => [],
        confirmation_numbers := match ocrData with
          | some o => o.confirmation_numbers
          | none => [],
        employee_names := match ocrData with
          | some o => o.employee_names
          | none => [],
        service_period := match ocrData with
          | some o => strTrim ((jsOr o.service_start (.str "")).display ++ " to " ++
              (jsOr o.service_end (.str "")).display)
          | none => "" } }

/-- A journal (payroll) entry passed through to the output with its tag
fields (`data_source` is the constant it already carries). -/
structure PayrollRec where
  payroll_type : String
  entry : LedgerRec
deriving DecidableEq, Repr

/-- The `_metadata` block of the merged output. -/
structure MetaRec where
  generated_at : String
  ledger_source : String
  ocr_source : String
  descr : String
  legend_ledger : String
  legend_ocr : String
deriving DecidableEq, Repr

/-- The full merged-output document (`merged-data.json` before
`JSON.stringify`, which is a deterministic function of this structure). -/
structure MergedOutput where
  metadata : MetaRec
  matched_invoices : List MergedRecord
  ledger_only_invoices : List MergedRecord
  ledger_only_journals : List PayrollRec
  ocr_only : List MergedRecord
deriving DecidableEq, Repr

/-- One row of the merge script's `data.csv` as read by its `main`: the
`Number` column and the parse result of the `postProcessOCR` column. -/
structure PostRow where
  number : JSVal
  post : Option OCR
deriving DecidableEq, Repr

/-- The unique-invoice extraction of `main`: keep the first row for each
key `postOcr.all_source_rows?.[0] || row.Number`, tracked by a `Set`. -/
def extractGo : List PostRow → List JSVal → List OCR
  | [], _ => []
  | r :: rest, seen =>
    match r.post with
    | none => extractGo rest seen
    | some postOcr =>
      let key := jsOr (match postOcr.all_source_rows with
        | some (x :: _) => x
        | _ => .undef) r.number
      if seen.contains key then extractGo rest seen
      else postOcr :: extractGo rest (key :: seen)

def extractOcrInvoices (ocrRaw : List PostRow) : List OCR := extractGo ocrRaw []

/-- The merged-output construction of the merge script's `main`, from the
parsed ledger entries, the parsed OCR rows, and the run timestamp
`new Date().toISOString()`. -/
def mainMerged (ledgerEntries : List LedgerRec) (ocrRaw : List PostRow)
    (now : String) : MergedOutput :=
  let invoiceEntries := ledgerEntries.filter
    (fun e => e.document_type == JSVal.str "Invoice")
  let journalEntries := ledgerEntries.filter
    (fun e => e.document_type == JSVal.str "Journal")
  let ocrInvoices := extractOcrInvoices ocrRaw
  let res := matchInvoices invoiceEntries ocrInvoices
  { metadata := ⟨now, "ledger.csv", "data.csv",
      "Merged financial data from Metro Nashville ledger (source of truth) and OCR-extracted invoice scans",
      "Authoritative data from Metro Nashville financial system - use for amounts, dates, vendor IDs",
      "Supplementary data from scanned invoice PDFs - provides line items, confirmation numbers, service details"⟩,
    matched_invoices := res.matchList.map (fun m =>
      createMergedRecord (some (invoiceEntries.getD m.ledgerIdx defLedger))
        (some (ocrInvoices.getD m.ocrIdx defOCR)) (some ⟨m.mtype, m.confidence, m.notes⟩)),
    ledger_only_invoices := (res.unmatchedLedger.filter (fun li =>
        (invoiceEntries.getD li defLedger).document_type == JSVal.str "Invoice")).map (fun li =>
      createMergedRecord (some (invoiceEntries.getD li defLedger)) none
        (some ⟨"ledger_only", 1, "No matching OCR scan found"⟩)),
    ledger_only_journals := journalEntries.map (fun j => ⟨"PAYROLL", j⟩),
    ocr_only := res.unmatchedOcr.map (fun oi =>
      createMergedRecord none (some (ocrInvoices.getD oi defOCR))
        (some ⟨"ocr_only", (1 : ℚ)/2,
          "Not found in ledger - may be internal form or processing document"⟩)) }

lemma boolIfElse (a b : Bool) : (if a = true then true else b) = (a || b) := by
  cases a <;> simp

/-- The classifier as one Boolean expression (else-chain flattened). -/
lemma effCont_eq (p : OCR) :
    isEffectiveContinuationPage (some p) =
      ((p.meta_is_continuation_page == JSVal.bool true) ||
       ((!p.invoice_date.truthy || p.invoice_date == JSVal.str "null" ||
           p.invoice_date == JSVal.str "YYYY-MM-DD") &&
        ((!p.invoice_number.truthy || p.invoice_number == JSVal.str "N/A" ||
            p.invoice_number == JSVal.str "null" || p.invoice_number == JSVal.str "string" ||
            p.invoice_number == JSVal.str "unknown") ||
          !p.vendor_id.truthy)) ||
       ((!p.vendor_name.truthy || p.vendor_name == JSVal.str "unknown" ||
           p.vendor_name == JSVal.str "Unknown") &&
        (!p.invoice_date.truthy || p.invoice_date == JSVal.str "null" ||
           p.invoice_date == JSVal.str "YYYY-MM-DD") &&
        !p.vendor_id.truthy && !p.bu_code.truthy)) := by
  simp only [isEffectiveContinuationPage, boolIfElse, Bool.or_false, Bool.or_assoc]

/-- C3: `isEffectiveContinuationPage` returns `true` exactly for records
that are explicitly declared continuations, or have a missing/placeholder
date together with (a missing/placeholder invoice number or a missing vendor
identifier), or have an unknown vendor name with missing date, vendor
identifier and business code; it returns `false` otherwise, including for a
null record. -/
theorem effective_continuation_characterization (o : Option OCR) :
    isEffectiveContinuationPage o = true ↔
      ∃ p : OCR, o = some p ∧
        (p.meta_is_continuation_page = JSVal.bool true ∨
         ((p.invoice_date.truthy = false ∨ p.invoice_date = JSVal.str "null" ∨
             p.invoice_date = JSVal.str "YYYY-MM-DD") ∧
          ((p.invoice_number.truthy = false ∨ p.invoice_number = JSVal.str "N/A" ∨
              p.invoice_number = JSVal.str "null" ∨ p.invoice_number = JSVal.str "string" ∨
              p.invoice_number = JSVal.str "unknown") ∨
            p.vendor_id.truthy = false)) ∨
         ((p.vendor_name.truthy = false ∨ p.vendor_name = JSVal.str "unknown" ∨
             p.vendor_name = JSVal.str "Unknown") ∧
          (p.invoice_date.truthy = false ∨ p.invoice_date = JSVal.str "null" ∨
             p.invoice_date = JSVal.str "YYYY-MM-DD") ∧
          p.vendor_id.truthy = false ∧ p.bu_code.truthy = false)) := by
  cases o with
  | none => simp [isEffectiveContinuationPage]
  | some p =>
    rw [effCont_eq]
    simp [Bool.or_eq_true, Bool.and_eq_true, Bool.not_eq_true', beq_iff_eq, or_assoc,
      and_assoc]

/-- C7: for a one-page group the reconciler emits the page record verbatim —
every invoice field unchanged — adding only the single-page `merge_info`
(`was_merged = false`, `page_count = 1`) and the provenance lists. -/
theorem createMergedInvoice_singleton (p : Page) :
    createMergedInvoice [p] = some { p.ocr with
      merge_info := some ⟨1, [jsOr p.ocr.meta_source_page (.num 0)], false,
        "Single-page invoice"⟩,
      all_source_file_ids := some [p.row.fileId],
      all_source_rows := some [p.row.number] } := rfl

/-- C8 counterexample: on a record with no fields, `isHeaderPage` returns
the JS value `undefined` — not the boolean `false` (and `isFolioPage`
likewise returns `undefined` there). -/
theorem classifier_returns_undefined :
    isHeaderPage (some defOCR) = JSVal.undef ∧
    isFolioPage (some defOCR) = JSVal.undef ∧
    JSVal.undef ≠ JSVal.bool true ∧ JSVal.undef ≠ JSVal.bool false := by decide

/-- C8 (amended): the classifiers are total functions — they never throw on
missing fields — and their results are definite under boolean coercion:
`isEffectiveContinuationPage` returns exactly `true` or `false`;
`isHeaderPage` returns the literal `true` or a falsy value (the first falsy
operand of its `&&` chain, e.g. `undefined`); `isFolioPage` returns a
literal boolean or a falsy value. -/
theorem classifier_totality (o : Option OCR) :
    (isEffectiveContinuationPage o = true ∨ isEffectiveContinuationPage o = false) ∧
    (isHeaderPage o = JSVal.bool true ∨ (isHeaderPage o).truthy = false) ∧
    ((∃ b, isFolioPage o = JSVal.bool b) ∨ (isFolioPage o).truthy = false) := by
  refine ⟨?_, ?_, ?_⟩
  · cases h : isEffectiveContinuationPage o
    · exact Or.inr rfl
    · exact Or.inl rfl
  · cases o with
    | none => exact Or.inr rfl
    | some p =>
      simp only [isHeaderPage, jsAnd, jsNot]
      by_cases h1 : p.vendor_id.truthy <;> simp [h1]
      by_cases h2 : p.bu_code.truthy <;> simp [h2]
      by_cases h3 : p.invoice_date.truthy <;> simp [h3]
      cases hb : p.meta_is_continuation_page.truthy <;> simp [JSVal.truthy]
  · cases o with
    | none => exact Or.inl ⟨false, rfl⟩
    | some p =>
      simp only [isFolioPage, jsAnd]
      by_cases h1 : p.invoice_number.truthy <;> simp [h1]

/-- C9 counterexample: the serialized merged output embeds the run
timestamp (`_metadata.generated_at`), so two runs on the same input are not
byte-identical. -/
theorem mainMerged_not_run_independent :
    mainMerged [] [] "2024-01-01T00:00:00.000Z" ≠
      mainMerged [] [] "2024-01-02T00:00:00.000Z" := by decide

/-- C9 (amended): on fixed input the pipeline is deterministic up to the
`generated_at` timestamp: the outputs of two runs agree on every bucket and
record, differing only in that metadata field — so with the timestamp fixed
the serialized output is byte-identical. -/
theorem mainMerged_deterministic_mod_timestamp (ledgerEntries : List LedgerRec)
    (ocrRaw : List PostRow) (t1 t2 : String) :
    mainMerged ledgerEntries ocrRaw t1 =
      { mainMerged ledgerEntries ocrRaw t2 with
        metadata := { (mainMerged ledgerEntries ocrRaw t2).metadata with
          generated_at := t1 } } := rfl

/-- Steps of either pass only ever append match records satisfying `R`. -/
lemma foldl_matchList_pred (step : MState → Nat → MState) (R : MatchRec → Prop)
    (hstep : ∀ s li m, m ∈ (step s li).matchList → m ∈ s.matchList ∨ R m) :
    ∀ (l : List Nat) (s : MState), (∀ m ∈ s.matchList, R m) →
      ∀ m ∈ (l.foldl step s).matchList, R m := by
  intro l
  induction l with
  | nil => intro s hs m hm; exact hs m hm
  | cons li rest ih =>
    intro s hs m hm
    refine ih (step s li) ?_ m hm
    intro m' hm'
    rcases hstep s li m' hm' with h | h
    · exact hs m' h
    · exact h

/-- A Pass 1 step appends only `invoice_number` matches whose OCR position
has a usable normalized invoice number. -/
lemma pass1Step_append (L : List LedgerRec) (O : List OCR) (s : MState) (li : Nat)
    (m : MatchRec) (hm : m ∈ (pass1Step L O s li).matchList) :
    m ∈ s.matchList ∨
      (m.mtype = "invoice_number" ∧
        normalizeInvoiceNumber ((O.getD m.ocrIdx defOCR).invoice_number) ≠ "" ∧
        normalizeInvoiceNumber ((O.getD m.ocrIdx defOCR).invoice_number) ≠ "N/A") := by
  unfold pass1Step at hm
  by_cases h1 : (L.getD li defLedger).document_type != JSVal.str "Invoice"
  · rw [if_pos h1] at hm; exact Or.inl hm
  · rw [if_neg h1] at hm
    by_cases h2 : normalizeInvoiceNumber (L.getD li defLedger).invoice_number == ""
    · rw [if_pos h2] at hm; exact Or.inl hm
    · rw [if_neg h2] at hm
      rcases hfind : (candidatesFor O (normalizeInvoiceNumber
          (L.getD li defLedger).invoice_number)).find? (fun idx =>
            pass1Vendor (L.getD li defLedger) (O.getD idx defOCR)) with _ | idx
      · rw [hfind] at hm; exact Or.inl hm
      · rw [hfind] at hm
        simp only [List.mem_append, List.mem_singleton] at hm
        rcases hm with hm | hm
        · exact Or.inl hm
        · right
          subst hm
          have hidx := List.mem_of_find?_eq_some hfind
          simp only [candidatesFor, List.mem_filter, Bool.and_eq_true, bne_iff_ne,
            ne_eq, beq_iff_eq, List.mem_range] at hidx
          exact ⟨rfl, hidx.2.1.1, hidx.2.1.2⟩

/-- A Pass 2 step appends only `vendor_date_amount` matches. -/
lemma pass2Step_append (L : List LedgerRec) (O : List OCR) (s : MState) (li : Nat)
    (m : MatchRec) (hm : m ∈ (pass2Step L O s li).matchList) :
    m ∈ s.matchList ∨ m.mtype = "vendor_date_amount" := by
  unfold pass2Step at hm
  by_cases h1 : normalizeDate (L.getD li defLedger).invoice_date == ""
  · rw [if_pos h1] at hm; exact Or.inl hm
  · rw [if_neg h1] at hm
    rcases hfind : s.unmatchedOcr.find? (fun oi => pass2Cond L O li oi) with _ | oi
    · rw [hfind] at hm; exact Or.inl hm
    · rw [hfind] at hm
      simp only [List.mem_append, List.mem_singleton] at hm
      rcases hm with hm | hm
      · exact Or.inl hm
      · subst hm; exact Or.inr rfl

/-- C10: a ledger invoice number that is empty, whitespace-only, or all
leading zeros normalizes to the empty string and makes Pass 1 skip the
entry; an OCR record whose normalized invoice number is empty or `N/A` never
enters the Pass-1 index, so no `invoice_number` match ever claims it. -/
theorem empty_invoice_numbers_skip_pass1 :
    (∀ v : JSVal, (v.truthy = false ∨ ((strTrim v.display).toList.all (· = '0')) = true) →
      normalizeInvoiceNumber v = "") ∧
    (∀ (L : List LedgerRec) (O : List OCR) (s : MState) (li : Nat),
      normalizeInvoiceNumber ((L.getD li defLedger).invoice_number) = "" →
      pass1Step L O s li = s) ∧
    (∀ (O : List OCR) (oi : Nat) (ln : String),
      (normalizeInvoiceNumber ((O.getD oi defOCR).invoice_number) = "" ∨
       normalizeInvoiceNumber ((O.getD oi defOCR).invoice_number) = "N/A") →
      oi ∉ candidatesFor O ln) ∧
    (∀ (L : List LedgerRec) (O : List OCR),
      ∀ m ∈ (matchInvoices L O).matchList, m.mtype = "invoice_number" →
        normalizeInvoiceNumber ((O.getD m.ocrIdx defOCR).invoice_number) ≠ "" ∧
        normalizeInvoiceNumber ((O.getD m.ocrIdx defOCR).invoice_number) ≠ "N/A") := by
  refine ⟨?_, ?_, ?_, ?_⟩
  · intro v hv
    rcases hv with hv | hv
    · simp [normalizeInvoiceNumber, hv]
    · unfold normalizeInvoiceNumber
      by_cases ht : v.truthy
      · rw [if_neg (by simp [ht])]
        have : ((strTrim v.display).toList).dropWhile (· = '0') = [] := by
          rw [List.dropWhile_eq_nil_iff]
          intro x hx
          simpa using List.all_eq_true.mp hv x hx
        rw [this]; rfl
      · simp [ht]
  · intro L O s li h
    unfold pass1Step
    by_cases h1 : (L.getD li defLedger).document_type != JSVal.str "Invoice"
    · rw [if_pos h1]
    · rw [if_neg h1, if_pos (beq_iff_eq.mpr h)]
  · intro O oi ln hn hmem
    simp only [candidatesFor, List.mem_filter, Bool.and_eq_true, bne_iff_ne, ne_eq,
      beq_iff_eq, List.mem_range] at hmem
    rcases hn with hn | hn
    · exact hmem.2.1.1 hn
    · exact hmem.2.1.2 hn
  · intro L O m hm hty
    unfold matchInvoices at hm
    have hstep1 : ∀ s li m', m' ∈ (pass1Step L O s li).matchList → m' ∈ s.matchList ∨
        (m'.mtype = "invoice_number" →
          normalizeInvoiceNumber ((O.getD m'.ocrIdx defOCR).invoice_number) ≠ "" ∧
          normalizeInvoiceNumber ((O.getD m'.ocrIdx defOCR).invoice_number) ≠ "N/A") := by
      intro s li m' hm'
      rcases pass1Step_append L O s li m' hm' with h | h
      · exact Or.inl h
      · exact Or.inr (fun _ => ⟨h.2.1, h.2.2⟩)
    have base := foldl_matchList_pred (pass1Step L O) _ hstep1 (List.range L.length)
      ⟨[], List.range L.length, List.range O.length⟩ (by intro m' hm'; simp at hm')
    have hstep2 : ∀ s li m', m' ∈ (pass2Step L O s li).matchList → m' ∈ s.matchList ∨
        (m'.mtype = "invoice_number" →
          normalizeInvoiceNumber ((O.getD m'.ocrIdx defOCR).invoice_number) ≠ "" ∧
          normalizeInvoiceNumber ((O.getD m'.ocrIdx defOCR).invoice_number) ≠ "N/A") := by
      intro s li m' hm'
      rcases pass2Step_append L O s li m' hm' with h | h
      · exact Or.inl h
      · exact Or.inr (fun hty' => absurd (hty' ▸ h) (by decide))
    exact foldl_matchList_pred (pass2Step L O) _ hstep2 _ _ base m hm hty

theorem empty_invoice_numbers_skip_pass1_witness :
    normalizeInvoiceNumber (JSVal.str " 000 ") = "" :=
  empty_invoice_numbers_skip_pass1.1 (JSVal.str " 000 ") (Or.inr (by decide))

/-- `find?` over a decomposition whose prefix all fails the test. -/
lemma find?_append_first {α} (p : α → Bool) :
    ∀ (l1 : List α) (a : α) (l2 : List α), (∀ x ∈ l1, p x = false) → p a = true →
      (l1 ++ a :: l2).find? p = some a := by
  intro l1
  induction l1 with
  | nil =>
    intro a l2 _ ha
    simpa using List.find?_cons_of_pos _ ha
  | cons x xs ih =>
    intro a l2 hl ha
    have hx : p x = false := hl x (by simp)
    rw [List.cons_append, List.find?_cons_of_neg _ (by simp [hx])]
    exact ih a l2 (fun y hy => hl y (by simp [hy])) ha

/-- C4: Pass 2 of the matcher, for a ledger entry with a resolvable
(non-empty normalized) date, produces a match exactly when some document in
the current unmatched pool passes the vendor+date+amount test; the first
such document (in pool order) is accepted with confidence 0.85, the match
carries the `vendor_date_amount` kind, and both parties are removed from
their pools.  The test requires case-insensitively equal normalized vendor
names, equal normalized dates, and equal amounts at integer cent precision
(`Math.round(x*100)`). -/
theorem pass2_match_characterization (L : List LedgerRec) (O : List OCR)
    (s : MState) (li : Nat) :
    (∀ oi, pass2Cond L O li oi = true ↔
      (strUpper (normalizeVendorForLedgerMatch ((O.getD oi defOCR).vendor_name)) =
        strUpper (jsString ((L.getD li defLedger).vendor_name)) ∧
       normalizeDate ((L.getD li defLedger).invoice_date) =
        normalizeDate ((O.getD oi defOCR).invoice_date) ∧
       jsRound (numOr0 ((L.getD li defLedger).debit) * 100) =
        jsRound (numOr0 ((O.getD oi defOCR).invoice_total) * 100))) ∧
    (normalizeDate ((L.getD li defLedger).invoice_date) = "" →
      pass2Step L O s li = s) ∧
    ((∀ oi ∈ s.unmatchedOcr, pass2Cond L O li oi = false) →
      pass2Step L O s li = s) ∧
    (∀ (l1 : List Nat) (oi : Nat) (l2 : List Nat),
      s.unmatchedOcr = l1 ++ oi :: l2 →
      (∀ x ∈ l1, pass2Cond L O li x = false) →
      pass2Cond L O li oi = true →
      normalizeDate ((L.getD li defLedger).invoice_date) ≠ "" →
      pass2Step L O s li =
        { matchList := s.matchList ++ [⟨li, oi, "vendor_date_amount", (85 : ℚ)/100,
            pass2Notes (L.getD li defLedger)
              (normalizeDate ((L.getD li defLedger).invoice_date))
              (jsRound (numOr0 ((L.getD li defLedger).debit) * 100))⟩],
          unmatchedLedger := s.unmatchedLedger.erase li,
          unmatchedOcr := s.unmatchedOcr.erase oi }) := by
  refine ⟨?_, ?_, ?_, ?_⟩
  · intro oi
    simp [pass2Cond, Bool.and_eq_true, beq_iff_eq, and_assoc]
  · intro h
    unfold pass2Step
    rw [if_pos (beq_iff_eq.mpr h)]
  · intro h
    unfold pass2Step
    by_cases hd : normalizeDate ((L.getD li defLedger).invoice_date) == ""
    · rw [if_pos hd]
    · rw [if_neg hd, List.find?_eq_none.mpr (by intro x hx; simp [h x hx])]
  · intro l1 oi l2 hdec hl1 hoi hdate
    unfold pass2Step
    rw [if_neg (fun hc => hdate (beq_iff_eq.mp hc)), hdec,
      find?_append_first _ l1 oi l2 hl1 hoi, ← hdec]

def exLedgerB : LedgerRec :=
  { defLedger with
    document_type := .str "Invoice",
    vendor_name := .str "Acme Hotels",
    invoice_date := .str "2024-09-08",
    debit := .num 2240 }

def exOcrB : OCR :=
  { defOCR with
    vendor_name := .str "Acme Hotels",
    invoice_date := .str "2024-09-08",
    invoice_total := .num 2240 }

theorem pass2_match_characterization_witness :
    pass2Step [exLedgerB] [exOcrB] ⟨[], [0], [0]⟩ 0 =
      { matchList := [⟨0, 0, "vendor_date_amount", (85 : ℚ)/100,
          pass2Notes (List.getD [exLedgerB] 0 defLedger)
            (normalizeDate ((List.getD [exLedgerB] 0 defLedger).invoice_date))
            (jsRound (numOr0 ((List.getD [exLedgerB] 0 defLedger).debit) * 100))⟩],
        unmatchedLedger := List.erase [0] 0,
        unmatchedOcr := List.erase [0] 0 } :=
  (pass2_match_characterization [exLedgerB] [exOcrB] ⟨[], [0], [0]⟩ 0).2.2.2
    [] 0 [] rfl (by simp)
    (by
      unfold pass2Cond
      have hs : List.getD [exLedgerB] 0 defLedger = exLedgerB := rfl
      have ho : List.getD [exOcrB] 0 defOCR = exOcrB := rfl
      rw [hs, ho]
      simp only []
      have hnum : numOr0 exLedgerB.debit = numOr0 exOcrB.invoice_total := rfl
      rw [hnum]
      simp only [beq_self_eq_true, Bool.and_true]
      decide)
    (by decide)

/-- A page without a vendor identifier is never a header page. -/
lemma headerB_false_of_no_vid (p : OCR) (h : p.vendor_id.truthy = false) :
    isHeaderPageB (some p) = false := by
  simp [isHeaderPageB, isHeaderPage, jsAnd, h]

/-- The stay-open condition of the lookahead as the specification words it:
the next page is adjacent (source page exactly one greater), has the same
vendor as the group head, and is either an effective continuation or a folio
page sharing the head's business code without its own vendor identifier. -/
def stayOpenClaim (firstOcr curOcr : OCR) (next : Option Page) : Bool :=
  match next with
  | none => false
  | some np =>
    (np.ocr.meta_source_page == JSVal.num (pageNum curOcr + 1)) &&
    isSameVendor np.ocr.vendor_name firstOcr.vendor_name &&
    (isEffectiveContinuationPage (some np.ocr) ||
      (isFolioPageB (some np.ocr) && np.ocr.bu_code.truthy && firstOcr.bu_code.truthy &&
        np.ocr.bu_code == firstOcr.bu_code && !np.ocr.vendor_id.truthy))

/-- On a positive-grand-total, non-continuation page the completion test is
exactly the negation of the claim's stay-open condition (the source's extra
`nextIsNewHeader` conjunct is redundant: a page without a vendor identifier
cannot be a header). -/
lemma closeAfterAppend_eq (f c : OCR) (rest : List Page)
    (hgt : c.meta_has_grand_total = JSVal.bool true)
    (hpos : 0 < numOr0 c.invoice_total)
    (heff : isEffectiveContinuationPage (some c) = false) :
    closeAfterAppend f c rest = !stayOpenClaim f c rest.head? := by
  unfold closeAfterAppend
  rw [if_pos (by simp [hgt, hpos, heff])]
  cases hh : rest.head? with
  | none => simp [stayOpenClaim]
  | some np =>
    simp only [stayOpenClaim]
    by_cases hv : np.ocr.vendor_id.truthy
    · simp [hv]
    · simp only [Bool.not_eq_true] at hv
      simp [headerB_false_of_no_vid np.ocr hv, hv, Bool.or_assoc]

/-- C5: whenever a page carrying a positive grand total, itself not an
effective continuation, is appended to the open group, the assembler closes
the group immediately unless the next input page is adjacent, has the same
vendor as the group head, and is either an effective continuation or a
folio page sharing the head's business code without its own vendor
identifier — in which case the group stays open. -/
theorem lookahead_close_rule (p : Page) (rest cur : List Page)
    (acc : List (List Page))
    (hne : cur.isEmpty = false)
    (hmerge : mergeDecision (cur.headD defPage).ocr (cur.getLastD defPage).ocr p.ocr = true)
    (hgt : p.ocr.meta_has_grand_total = JSVal.bool true)
    (hpos : 0 < numOr0 p.ocr.invoice_total)
    (heff : isEffectiveContinuationPage (some p.ocr) = false) :
    assembleGo (p :: rest) cur acc =
      if stayOpenClaim (cur.headD defPage).ocr p.ocr rest.head? = true
      then assembleGo rest (cur ++ [p]) acc
      else assembleGo rest [] (acc ++ [cur ++ [p]]) := by
  have hstep : assembleGo (p :: rest) cur acc =
      (if cur.isEmpty then assembleGo rest [p] acc
       else
        if mergeDecision (cur.headD defPage).ocr (cur.getLastD defPage).ocr p.ocr then
          if closeAfterAppend (cur.headD defPage).ocr p.ocr rest then
            assembleGo rest [] (acc ++ [cur ++ [p]])
          else assembleGo rest (cur ++ [p]) acc
        else assembleGo rest [p] (acc ++ [cur])) := rfl
  rw [hstep, if_neg (by simp [hne]), if_pos hmerge,
    closeAfterAppend_eq (cur.headD defPage).ocr p.ocr rest hgt hpos heff]
  cases hso : stayOpenClaim (cur.headD defPage).ocr p.ocr rest.head? <;> simp [hso]

def exFirstPage : Page :=
  ⟨⟨.str "f1", .num 1, none⟩,
   { defOCR with
      invoice_number := .str "123",
      vendor_name := .str "acme",
      meta_source_page := .num 1 }⟩

def exPage2 : Page :=
  ⟨⟨.str "f2", .num 2, none⟩,
   { defOCR with
      invoice_number := .str "123",
      vendor_name := .str "acme",
      meta_source_page := .num 2,
      meta_has_grand_total := .bool true,
      invoice_total := .num 5,
      invoice_date := .str "2024-01-01",
      meta_is_continuation_page := .bool false }⟩

theorem lookahead_close_rule_witness :
    assembleGo [exPage2] [exFirstPage] [] =
      if stayOpenClaim ([exFirstPage].headD defPage).ocr exPage2.ocr
          ([] : List Page).head? = true
      then assembleGo [] ([exFirstPage] ++ [exPage2]) []
      else assembleGo [] [] ([] ++ [[exFirstPage] ++ [exPage2]]) :=
  lookahead_close_rule exPage2 [] [exFirstPage] [] rfl
    (by
      have hcons : (pageNum exPage2.ocr == pageNum exFirstPage.ocr + 1) = true := by
        have h1 : pageNum exFirstPage.ocr = 1 := rfl
        have h2 : pageNum exPage2.ocr = 2 := rfl
        rw [h1, h2, show (1 : ℚ) + 1 = 2 by norm_num]
        exact beq_self_eq_true 2
      show mergeDecision exFirstPage.ocr exFirstPage.ocr exPage2.ocr = true
      simp only [mergeDecision, mergeCandidate]
      rw [hcons]
      decide)
    rfl (by decide) (by decide)

lemma insertKeyed_perm (before : α → α → Bool) (x : α) (l : List α) :
    List.Perm (insertKeyed before x l) (x :: l) := by
  induction l with
  | nil => exact List.Perm.refl _
  | cons y ys ih =>
    unfold insertKeyed
    by_cases h : before y x
    · rw [if_pos h]
      exact (ih.cons y).trans (List.Perm.swap x y ys)
    · rw [if_neg h]

lemma sortKeyed_perm (before : α → α → Bool) (l : List α) :
    List.Perm (sortKeyed before l) l := by
  induction l with
  | nil => exact List.Perm.refl _
  | cons x xs ih => exact (insertKeyed_perm before x (sortKeyed before xs)).trans (ih.cons x)

lemma map_ocr_headD (l : List Page) :
    (l.map (·.ocr)).headD defOCR = (l.headD defPage).ocr := by
  cases l <;> rfl

/-- The head of the stable sort is the element that strictly precedes the
whole prefix and is not strictly preceded by anything after it. -/
lemma sortKeyed_first_head (before : α → α → Bool) :
    ∀ (l1 : List α) (a : α) (l2 : List α),
      (∀ x ∈ l1, before a x = true) →
      (∀ x ∈ l2, before x a = false) →
      (sortKeyed before (l1 ++ a :: l2)).head? = some a := by
  intro l1
  induction l1 with
  | nil =>
    intro a l2 _ hl2
    show (insertKeyed before a (sortKeyed before l2)).head? = some a
    cases hs : sortKeyed before l2 with
    | nil => rfl
    | cons y ys =>
      have hy : y ∈ l2 := (sortKeyed_perm before l2).mem_iff.mp (by rw [hs]; simp)
      unfold insertKeyed
      rw [if_neg (by simp [hl2 y hy])]
      rfl
  | cons b l1' ih =>
    intro a l2 hl1 hl2
    have hb : before a b = true := hl1 b (by simp)
    have hrest := ih a l2 (fun x hx => hl1 x (by simp [hx])) hl2
    show (insertKeyed before b (sortKeyed before (l1' ++ a :: l2))).head? = some a
    cases hs : sortKeyed before (l1' ++ a :: l2) with
    | nil => rw [hs] at hrest; cases hrest
    | cons y ys =>
      rw [hs] at hrest
      have hya : y = a := by simpa using hrest
      subst hya
      unfold insertKeyed
      rw [if_pos hb]
      rfl


/-- C6: for a multi-page group the merged record's financial fields
(`invoice_total`, `amount_paid`, `amount_due`, `taxes`) are taken from the
member with the largest positive total among pages whose grand-total flag is
set — ties broken by first occurrence in page order — and fall back to the
group's first page when no member qualifies. -/
theorem reconciler_financial_fields (pages0 : List Page) (hlen : 2 ≤ pages0.length) :
    (∀ (l1 : List Page) (p : Page) (l2 : List Page),
      (sortPages pages0).filter qualifiesTotal = l1 ++ p :: l2 →
      (∀ x ∈ l1, numOr0 x.ocr.invoice_total < numOr0 p.ocr.invoice_total) →
      (∀ x ∈ l2, numOr0 x.ocr.invoice_total ≤ numOr0 p.ocr.invoice_total) →
      ∃ doc, createMergedInvoice pages0 = some doc ∧
        doc.invoice_total = jsOr p.ocr.invoice_total (.num 0) ∧
        doc.amount_paid = jsOr p.ocr.amount_paid (.num 0) ∧
        doc.amount_due = jsOr p.ocr.amount_due (.num 0) ∧
        doc.taxes = jsOr p.ocr.taxes (.num 0)) ∧
    ((sortPages pages0).filter qualifiesTotal = [] →
      ∃ doc, createMergedInvoice pages0 = some doc ∧
        doc.invoice_total = jsOr ((sortPages pages0).headD defPage).ocr.invoice_total (.num 0) ∧
        doc.amount_paid = jsOr ((sortPages pages0).headD defPage).ocr.amount_paid (.num 0) ∧
        doc.amount_due = jsOr ((sortPages pages0).headD defPage).ocr.amount_due (.num 0) ∧
        doc.taxes = jsOr ((sortPages pages0).headD defPage).ocr.taxes (.num 0)) := by
  have hne : pages0.isEmpty = false := by
    cases pages0 with
    | nil => simp at hlen
    | cons a l => rfl
  have hlen1 : (sortPages pages0).length ≠ 1 := by
    have hp := (sortKeyed_perm (fun a b => decide (pageNum a.ocr < pageNum b.ocr)) pages0).length_eq
    unfold sortPages
    omega
  have hmain : createMergedInvoice pages0 = some (mergeMultiPages (sortPages pages0)) := by
    unfold createMergedInvoice
    rw [if_neg (by simp [hne])]
    simp only []
    rw [if_neg hlen1]
  have hfields : ∀ pages : List Page,
      (mergeMultiPages pages).invoice_total =
        jsOr ((((sortByTotalDesc (pages.filter qualifiesTotal)).head?).map (·.ocr)).getD
          ((pages.map (·.ocr)).headD defOCR)).invoice_total (.num 0) ∧
      (mergeMultiPages pages).amount_paid =
        jsOr ((((sortByTotalDesc (pages.filter qualifiesTotal)).head?).map (·.ocr)).getD
          ((pages.map (·.ocr)).headD defOCR)).amount_paid (.num 0) ∧
      (mergeMultiPages pages).amount_due =
        jsOr ((((sortByTotalDesc (pages.filter qualifiesTotal)).head?).map (·.ocr)).getD
          ((pages.map (·.ocr)).headD defOCR)).amount_due (.num 0) ∧
      (mergeMultiPages pages).taxes =
        jsOr ((((sortByTotalDesc (pages.filter qualifiesTotal)).head?).map (·.ocr)).getD
          ((pages.map (·.ocr)).headD defOCR)).taxes (.num 0) :=
    fun pages => ⟨rfl, rfl, rfl, rfl⟩
  constructor
  · intro l1 p l2 hdec hl1 hl2
    have hhead : (sortByTotalDesc ((sortPages pages0).filter qualifiesTotal)).head? = some p := by
      unfold sortByTotalDesc
      rw [hdec]
      refine sortKeyed_first_head _ l1 p l2 ?_ ?_
      · intro x hx; exact decide_eq_true (hl1 x hx)
      · intro x hx; exact decide_eq_false (not_lt.mpr (hl2 x hx))
    refine ⟨mergeMultiPages (sortPages pages0), hmain, ?_, ?_, ?_, ?_⟩
    · rw [(hfields (sortPages pages0)).1, hhead]; rfl
    · rw [(hfields (sortPages pages0)).2.1, hhead]; rfl
    · rw [(hfields (sortPages pages0)).2.2.1, hhead]; rfl
    · rw [(hfields (sortPages pages0)).2.2.2, hhead]; rfl
  · intro hempty
    have hhead : (sortByTotalDesc ((sortPages pages0).filter qualifiesTotal)).head? = none := by
      rw [hempty]; rfl
    refine ⟨mergeMultiPages (sortPages pages0), hmain, ?_, ?_, ?_, ?_⟩
    · rw [(hfields (sortPages pages0)).1, hhead, map_ocr_headD]; rfl
    · rw [(hfields (sortPages pages0)).2.1, hhead, map_ocr_headD]; rfl
    · rw [(hfields (sortPages pages0)).2.2.1, hhead, map_ocr_headD]; rfl
    · rw [(hfields (sortPages pages0)).2.2.2, hhead, map_ocr_headD]; rfl

def exPageA6 : Page :=
  ⟨⟨.str "fA", .num 10, none⟩,
   { defOCR with
      vendor_name := .str "acme",
      meta_source_page := .num 1,
      invoice_total := .num 3 }⟩

def exPageB6 : Page :=
  ⟨⟨.str "fB", .num 11, none⟩,
   { defOCR with
      vendor_name := .str "acme",
      meta_source_page := .num 2,
      meta_has_grand_total := .bool true,
      invoice_total := .num 7,
      amount_paid := .num 7,
      amount_due := .num 0,
      taxes := .num 1 }⟩

theorem reconciler_financial_fields_witness :
    ∃ doc, createMergedInvoice [exPageA6, exPageB6] = some doc ∧
      doc.invoice_total = jsOr exPageB6.ocr.invoice_total (.num 0) ∧
      doc.amount_paid = jsOr exPageB6.ocr.amount_paid (.num 0) ∧
      doc.amount_due = jsOr exPageB6.ocr.amount_due (.num 0) ∧
      doc.taxes = jsOr exPageB6.ocr.taxes (.num 0) :=
  (reconciler_financial_fields [exPageA6, exPageB6] (by decide)).1
    [] exPageB6 [] (by decide) (by simp) (by simp)

/-- The pools-and-matches invariant maintained by both passes. -/
def MInv (s : MState) : Prop :=
  s.unmatchedLedger.Nodup ∧ s.unmatchedOcr.Nodup ∧
  (∀ m ∈ s.matchList, m.ledgerIdx ∉ s.unmatchedLedger) ∧
  (∀ m ∈ s.matchList, m.ocrIdx ∉ s.unmatchedOcr) ∧
  (s.matchList.map (fun m => m.ledgerIdx)).Nodup ∧
  s.matchList.Pairwise (fun m1 m2 => m2.mtype = "vendor_date_amount" → m1.ocrIdx ≠ m2.ocrIdx)

/-- Both step functions either leave the state unchanged or append one
match for the processed ledger position, erase that position from the
ledger pool and erase the match's OCR position from the OCR pool; a Pass 2
match's OCR position comes from the live OCR pool. -/
def StepShape (step : MState → Nat → MState) : Prop :=
  ∀ s li, step s li = s ∨ ∃ m : MatchRec, m.ledgerIdx = li ∧
    (m.mtype = "vendor_date_amount" → m.ocrIdx ∈ s.unmatchedOcr) ∧
    step s li = ⟨s.matchList ++ [m], s.unmatchedLedger.erase li,
      s.unmatchedOcr.erase m.ocrIdx⟩

lemma not_mem_erase_self {l : List Nat} (h : l.Nodup) (a : Nat) : a ∉ l.erase a := by
  by_cases hm : a ∈ l
  · intro hc
    exact (h.mem_erase_iff.mp hc).1 rfl
  · rw [List.erase_of_not_mem hm]
    exact hm

lemma pass1Step_shape (L : List LedgerRec) (O : List OCR) : StepShape (pass1Step L O) := by
  intro s li
  unfold pass1Step
  by_cases h1 : (L.getD li defLedger).document_type != JSVal.str "Invoice"
  · rw [if_pos h1]; exact Or.inl rfl
  · rw [if_neg h1]
    by_cases h2 : normalizeInvoiceNumber (L.getD li defLedger).invoice_number == ""
    · rw [if_pos h2]; exact Or.inl rfl
    · rw [if_neg h2]
      rcases hfind : (candidatesFor O (normalizeInvoiceNumber
          (L.getD li defLedger).invoice_number)).find? (fun idx =>
            pass1Vendor (L.getD li defLedger) (O.getD idx defOCR)) with _ | idx
      · exact Or.inl rfl
      · refine Or.inr ⟨_, rfl, ?_, rfl⟩
        intro hty
        simp at hty

lemma pass2Step_shape (L : List LedgerRec) (O : List OCR) : StepShape (pass2Step L O) := by
  intro s li
  unfold pass2Step
  by_cases h1 : normalizeDate (L.getD li defLedger).invoice_date == ""
  · rw [if_pos h1]; exact Or.inl rfl
  · rw [if_neg h1]
    rcases hfind : s.unmatchedOcr.find? (fun oi => pass2Cond L O li oi) with _ | oi
    · exact Or.inl rfl
    · exact Or.inr ⟨_, rfl, fun _ => List.mem_of_find?_eq_some hfind, rfl⟩

lemma foldl_MInv (step : MState → Nat → MState) (hshape : StepShape step) :
    ∀ (l : List Nat) (s : MState), l.Nodup →
      (∀ li ∈ l, ∀ m ∈ s.matchList, m.ledgerIdx ≠ li) → MInv s →
      MInv (l.foldl step s) := by
  intro l
  induction l with
  | nil => intro s _ _ hs; exact hs
  | cons li rest ih =>
    intro s hnd hfresh hs
    rw [List.foldl_cons]
    rcases hshape s li with hcase | ⟨m, hml, hmo, hcase⟩
    · rw [hcase]
      exact ih s (List.Nodup.of_cons hnd) (fun li' h' => hfresh li' (by simp [h'])) hs
    · obtain ⟨hL, hO, hdL, hdO, hnodupL, hpw⟩ := hs
      refine ih (step s li) (List.Nodup.of_cons hnd) ?_ ?_
      · intro li' hli' m' hm'
        rw [hcase] at hm'
        simp only [List.mem_append, List.mem_singleton] at hm'
        rcases hm' with hm' | hm'
        · exact hfresh li' (by simp [hli']) m' hm'
        · subst hm'
          rw [hml]
          exact fun hc => (List.nodup_cons.mp hnd).1 (hc ▸ hli')
      · rw [hcase]
        refine ⟨hL.erase li, hO.erase m.ocrIdx, ?_, ?_, ?_, ?_⟩
        · intro m' hm'
          simp only [List.mem_append, List.mem_singleton] at hm'
          rcases hm' with hm' | hm'
          · exact fun hc => hdL m' hm' (List.erase_subset _ _ hc)
          · subst hm'
            rw [hml]
            exact not_mem_erase_self hL li
        · intro m' hm'
          simp only [List.mem_append, List.mem_singleton] at hm'
          rcases hm' with hm' | hm'
          · exact fun hc => hdO m' hm' (List.erase_subset _ _ hc)
          · subst hm'
            exact not_mem_erase_self hO _
        · simp only [List.map_append, List.map_singleton]
          rw [List.nodup_append]
          refine ⟨hnodupL, List.nodup_singleton _, ?_⟩
          intro a ha
          simp only [List.mem_singleton]
          intro hc
          subst hc
          simp only [List.mem_map] at ha
          obtain ⟨m', hm', hma⟩ := ha
          exact hfresh li (by simp) m' hm' (hml ▸ hma)
        · rw [List.pairwise_append]
          refine ⟨hpw, List.pairwise_singleton _ _, ?_⟩
          intro m1 hm1 m2 hm2
          simp only [List.mem_singleton] at hm2
          subst hm2
          intro hty
          exact fun hc => hdO m1 hm1 (hc ▸ hmo hty)

lemma pairwise_filter_map_nodup (f : MatchRec → Nat) (p : MatchRec → Bool)
    (l : List MatchRec)
    (hpw : l.Pairwise (fun m1 m2 => p m2 = true → f m1 ≠ f m2)) :
    ((l.filter p).map f).Nodup := by
  induction l with
  | nil => exact List.nodup_nil
  | cons a rest ih =>
    obtain ⟨ha, hrest⟩ := List.pairwise_cons.mp hpw
    by_cases hp : p a
    · rw [List.filter_cons_of_pos hp, List.map_cons, List.nodup_cons]
      refine ⟨?_, ih hrest⟩
      intro hc
      simp only [List.mem_map] at hc
      obtain ⟨b, hb, hfb⟩ := hc
      have hbmem := List.mem_of_mem_filter hb
      have hbp := List.of_mem_filter hb
      exact ha b hbmem hbp (hfb.symm)
    · rw [List.filter_cons_of_neg hp]
      exact ih hrest

/-- C1 counterexample: two ledger invoice entries sharing one invoice
number and vendor both claim the single matching document in Pass 1 — the
prebuilt index is never updated, so the document appears in two
`invoice_number` matches. -/
theorem matchInvoices_double_claim :
    ((matchInvoices [exLedgerA, exLedgerA] [exOcrA]).matchList.map
      (fun m => (m.ledgerIdx, m.ocrIdx))) = [(0, 0), (1, 0)] ∧
    ((matchInvoices [exLedgerA, exLedgerA] [exOcrA]).matchList.map
      (fun m => m.mtype)) = ["invoice_number", "invoice_number"] := by
  constructor <;> decide

/-- C1 (amended): each invoice-kind ledger entry appears in at most one
match; each document appears in at most one `vendor_date_amount` (Pass 2)
match, and a document in a Pass 2 match appears in no earlier match of
either kind.  (A document *can* appear in several Pass 1 `invoice_number`
matches — see the counterexample — because the Pass 1 candidate index is
never pruned.) -/
theorem matchInvoices_at_most_one (L : List LedgerRec) (O : List OCR) :
    ((matchInvoices L O).matchList.map (fun m => m.ledgerIdx)).Nodup ∧
    (matchInvoices L O).matchList.Pairwise
      (fun m1 m2 => m2.mtype = "vendor_date_amount" → m1.ocrIdx ≠ m2.ocrIdx) ∧
    (((matchInvoices L O).matchList.filter
        (fun m => m.mtype == "vendor_date_amount")).map (fun m => m.ocrIdx)).Nodup := by
  have hinit : MInv ⟨[], List.range L.length, List.range O.length⟩ := by
    refine ⟨List.nodup_range _, List.nodup_range _, ?_, ?_, ?_, ?_⟩ <;> simp
  have hs1 := foldl_MInv (pass1Step L O) (pass1Step_shape L O) (List.range L.length)
    ⟨[], List.range L.length, List.range O.length⟩ (List.nodup_range _) (by simp) hinit
  set s1 := (List.range L.length).foldl (pass1Step L O)
    ⟨[], List.range L.length, List.range O.length⟩ with hs1def
  have hsnap : (s1.unmatchedLedger.filter (fun li =>
      (L.getD li defLedger).document_type == JSVal.str "Invoice")).Nodup :=
    hs1.1.filter _
  have hfresh2 : ∀ li ∈ s1.unmatchedLedger.filter (fun li =>
      (L.getD li defLedger).document_type == JSVal.str "Invoice"),
      ∀ m ∈ s1.matchList, m.ledgerIdx ≠ li := by
    intro li hli m hm hc
    exact hs1.2.2.1 m hm (hc ▸ List.mem_of_mem_filter hli)
  have hfinal := foldl_MInv (pass2Step L O) (pass2Step_shape L O) _ s1 hsnap hfresh2 hs1
  have hres : matchInvoices L O = (s1.unmatchedLedger.filter (fun li =>
      (L.getD li defLedger).document_type == JSVal.str "Invoice")).foldl
        (pass2Step L O) s1 := rfl
  rw [hres]
  refine ⟨hfinal.2.2.2.2.1, hfinal.2.2.2.2.2, ?_⟩
  exact pairwise_filter_map_nodup _ _ _
    (hfinal.2.2.2.2.2.imp (fun h hb => h (by simpa using hb)))

/-- Concatenating the emitted groups restores completed ++ open ++ remaining. -/
lemma assembleGo_flatten : ∀ (rem cur : List Page) (acc : List (List Page)),
    (assembleGo rem cur acc).flatten = acc.flatten ++ cur ++ rem := by
  intro rem
  induction rem with
  | nil =>
    intro cur acc
    show (if cur.isEmpty then acc else acc ++ [cur]).flatten = acc.flatten ++ cur ++ []
    by_cases h : cur.isEmpty
    · rw [if_pos h]
      simp [List.isEmpty_iff.mp h]
    · rw [if_neg h]
      simp
  | cons p rest ih =>
    intro cur acc
    have hstep : assembleGo (p :: rest) cur acc =
        (if cur.isEmpty then assembleGo rest [p] acc
         else
          if mergeDecision (cur.headD defPage).ocr (cur.getLastD defPage).ocr p.ocr then
            if closeAfterAppend (cur.headD defPage).ocr p.ocr rest then
              assembleGo rest [] (acc ++ [cur ++ [p]])
            else assembleGo rest (cur ++ [p]) acc
          else assembleGo rest [p] (acc ++ [cur])) := rfl
    rw [hstep]
    by_cases h : cur.isEmpty
    · rw [if_pos h, ih]
      simp [List.isEmpty_iff.mp h]
    · rw [if_neg h]
      by_cases hm : mergeDecision (cur.headD defPage).ocr (cur.getLastD defPage).ocr p.ocr
      · rw [if_pos hm]
        by_cases hc : closeAfterAppend (cur.headD defPage).ocr p.ocr rest
        · rw [if_pos hc, ih]
          simp
        · rw [if_neg hc, ih]
          simp
      · rw [if_neg hm, ih]
        simp

/-- Every emitted group is non-empty. -/
lemma assembleGo_ne_nil : ∀ (rem cur : List Page) (acc : List (List Page)),
    (∀ g ∈ acc, g ≠ []) → ∀ g ∈ assembleGo rem cur acc, g ≠ [] := by
  intro rem
  induction rem with
  | nil =>
    intro cur acc hacc g hg
    by_cases h : cur.isEmpty
    · rw [show assembleGo [] cur acc = (if cur.isEmpty then acc else acc ++ [cur]) from rfl,
        if_pos h] at hg
      exact hacc g hg
    · rw [show assembleGo [] cur acc = (if cur.isEmpty then acc else acc ++ [cur]) from rfl,
        if_neg h] at hg
      simp only [List.mem_append, List.mem_singleton] at hg
      rcases hg with hg | hg
      · exact hacc g hg
      · subst hg
        exact fun hc => h (by rw [hc]; rfl)
  | cons p rest ih =>
    intro cur acc hacc g hg
    have hstep : assembleGo (p :: rest) cur acc =
        (if cur.isEmpty then assembleGo rest [p] acc
         else
          if mergeDecision (cur.headD defPage).ocr (cur.getLastD defPage).ocr p.ocr then
            if closeAfterAppend (cur.headD defPage).ocr p.ocr rest then
              assembleGo rest [] (acc ++ [cur ++ [p]])
            else assembleGo rest (cur ++ [p]) acc
          else assembleGo rest [p] (acc ++ [cur])) := rfl
    rw [hstep] at hg
    by_cases h : cur.isEmpty
    · rw [if_pos h] at hg
      exact ih [p] acc hacc g hg
    · rw [if_neg h] at hg
      by_cases hm : mergeDecision (cur.headD defPage).ocr (cur.getLastD defPage).ocr p.ocr
      · rw [if_pos hm] at hg
        by_cases hc : closeAfterAppend (cur.headD defPage).ocr p.ocr rest
        · rw [if_pos hc] at hg
          refine ih [] (acc ++ [cur ++ [p]]) ?_ g hg
          intro g' hg'
          simp only [List.mem_append, List.mem_singleton] at hg'
          rcases hg' with hg' | hg'
          · exact hacc g' hg'
          · subst hg'
            simp
        · rw [if_neg hc] at hg
          exact ih (cur ++ [p]) acc hacc g hg
      · rw [if_neg hm] at hg
        refine ih [p] (acc ++ [cur]) ?_ g hg
        intro g' hg'
        simp only [List.mem_append, List.mem_singleton] at hg'
        rcases hg' with hg' | hg'
        · exact hacc g' hg'
        · subst hg'
          exact fun hc => h (by rw [hc]; rfl)

/-- Stable insertion keeps the list sorted for any relation that the
comparator decides totally and transitively. -/
lemma insertKeyed_pairwise (R : α → α → Prop) (before : α → α → Bool)
    (h1 : ∀ a b, before a b = true → R a b)
    (h2 : ∀ a b, before b a = false → R a b)
    (h3 : ∀ a b c, R a b → R b c → R a c) (x : α) :
    ∀ (s : List α), s.Pairwise R → (insertKeyed before x s).Pairwise R := by
  intro s
  induction s with
  | nil => intro _; simp [insertKeyed]
  | cons y ys ih =>
    intro hs
    obtain ⟨hy, hys⟩ := List.pairwise_cons.mp hs
    unfold insertKeyed
    by_cases hb : before y x
    · rw [if_pos hb]
      rw [List.pairwise_cons]
      refine ⟨?_, ih hys⟩
      intro z hz
      rcases List.mem_cons.mp ((insertKeyed_perm before x ys).mem_iff.mp hz) with hz1 | hz1
      · exact hz1 ▸ h1 y x hb
      · exact hy z hz1
    · rw [if_neg hb]
      rw [List.pairwise_cons]
      refine ⟨?_, hs⟩
      intro z hz
      simp only [List.mem_cons] at hz
      rcases hz with hz | hz
      · exact hz ▸ h2 x y (by simpa using hb)
      · exact h3 x y z (h2 x y (by simpa using hb)) (hy z hz)

lemma sortKeyed_pairwise (R : α → α → Prop) (before : α → α → Bool)
    (h1 : ∀ a b, before a b = true → R a b)
    (h2 : ∀ a b, before b a = false → R a b)
    (h3 : ∀ a b c, R a b → R b c → R a c) :
    ∀ (l : List α), (sortKeyed before l).Pairwise R := by
  intro l
  induction l with
  | nil => exact List.Pairwise.nil
  | cons x xs ih => exact insertKeyed_pairwise R before h1 h2 h3 x _ ih

/-- The group heads form a sublist of the concatenation. -/
lemma heads_sublist : ∀ (gs : List (List Page)), (∀ g ∈ gs, g ≠ []) →
    List.Sublist (gs.map (fun g => g.headD defPage)) gs.flatten := by
  intro gs
  induction gs with
  | nil => simp
  | cons g rest ih =>
    intro hne
    rcases g with _ | ⟨h, t⟩
    · exact absurd rfl (hne [] (by simp))
    · show List.Sublist (h :: rest.map (fun g => g.headD defPage)) ((h :: t) ++ rest.flatten)
      rw [List.cons_append]
      exact List.Sublist.cons₂ h ((ih (fun g hg => hne g (by simp [hg]))).trans
        (List.sublist_append_right t _))

/-- C2: the groups produced by the assembler partition the surviving pages:
their concatenation is exactly the sorted page sequence (so every page lies
in exactly one group and any group still open at end of input is emitted),
every group is non-empty, the sorted sequence is a permutation of the
surviving pages, and the groups are ordered by their first page's source
page number. -/
theorem assembler_partition (rows : List SrcRow) :
    (processInvoices rows).flatten = sortPages (pagesWithOcr rows) ∧
    (∀ g ∈ processInvoices rows, g ≠ []) ∧
    List.Perm (sortPages (pagesWithOcr rows)) (pagesWithOcr rows) ∧
    ((processInvoices rows).map (fun g => g.headD defPage)).Pairwise
      (fun a b => pageNum a.ocr ≤ pageNum b.ocr) := by
  have hflat : (processInvoices rows).flatten = sortPages (pagesWithOcr rows) := by
    unfold processInvoices
    rw [assembleGo_flatten]
    simp
  have hne : ∀ g ∈ processInvoices rows, g ≠ [] :=
    assembleGo_ne_nil _ _ _ (by simp)
  have hsorted : (sortPages (pagesWithOcr rows)).Pairwise
      (fun a b => pageNum a.ocr ≤ pageNum b.ocr) := by
    unfold sortPages
    refine sortKeyed_pairwise _ _ ?_ ?_ ?_ (pagesWithOcr rows)
    · intro a b hab
      exact le_of_lt (of_decide_eq_true hab)
    · intro a b hab
      exact not_lt.mp (of_decide_eq_false hab)
    · intro a b c h1 h2
      exact le_trans h1 h2
  have hsub := heads_sublist (processInvoices rows) hne
  rw [hflat] at hsub
  exact ⟨hflat, hne, sortKeyed_perm _ _, List.Pairwise.sublist hsub hsorted⟩
